import Mathlib

/-!
# Talk-to-your-data: the natural-language-to-SQL pipeline of `server/server.js`

A shallow embedding of `runQuery`, `nl2sqlPlaceholder` and the `POST /query`
handler, and the properties the specification states about them.

Conventions of the embedding.

* A JavaScript computation that can throw is a value of `Except String α`; the
  string is the `message` of the thrown error.
* `app.locals.db` is a `Database σ`: each call takes the stored state `σ` and
  returns either a value or a thrown message, with the next state.
* Every call the handler makes on the database, and each invocation of
  `runQuery`, is recorded in a list of `Event`s.
-/

namespace TalkToYourData

/-! ## String primitives -/

/-- Lower-casing as `String.prototype.toLowerCase` does on ASCII text: the
letters `A`..`Z` are mapped to `a`..`z`, every other character is kept. The
code inspects the lower-cased text only through `includes`, `startsWith` and
regular expressions with ASCII literals. The characters outside ASCII that
JavaScript lower-cases to an ASCII letter are U+212A (to `k`) and U+0130 (to
`i` followed by U+0307), and no literal contains `k` or ends in `i`, so only
the spelling of an extracted name can differ from the engine. -/
def toLowerCase (s : String) : String :=
  String.mk (s.data.map Char.toLower)

/-- Whether the first list is a prefix of the second. -/
def startsWithChars : List Char → List Char → Bool
  | [], _ => true
  | _ :: _, [] => false
  | p :: ps, c :: cs => p == c && startsWithChars ps cs

/-- Whether `needle` occurs in the list as a contiguous run. -/
def includesChars (needle : List Char) : List Char → Bool
  | [] => startsWithChars needle []
  | c :: cs => startsWithChars needle (c :: cs) || includesChars needle cs

/-- The method `String.prototype.includes`. -/
def includes (s needle : String) : Bool :=
  includesChars needle.data s.data

/-- The method `String.prototype.startsWith`. -/
def startsWith (s pre : String) : Bool :=
  startsWithChars pre.data s.data

/-- The characters `String.prototype.trim` strips: ECMAScript white space and
line terminators. -/
def isTrimChar (c : Char) : Bool :=
  let n := c.toNat
  n == 0x09 || n == 0x0A || n == 0x0B || n == 0x0C || n == 0x0D || n == 0x20 ||
  n == 0xA0 || n == 0x1680 || (0x2000 ≤ n && n ≤ 0x200A) || n == 0x2028 ||
  n == 0x2029 || n == 0x202F || n == 0x205F || n == 0x3000 || n == 0xFEFF

/-- Drops the leading characters that `trim` strips. -/
def trimStartChars : List Char → List Char
  | [] => []
  | c :: cs => if isTrimChar c then trimStartChars cs else c :: cs

/-- The method `String.prototype.trim`. -/
def trim (s : String) : String :=
  String.mk (trimStartChars (trimStartChars s.data).reverse).reverse

/-! ## The regular expressions of `nl2sqlPlaceholder`

The three patterns of the source are alternations of sequences of literals,
`.*` and a capturing `(.+)`. They are matched as a backtracking engine does:
leftmost start position, alternatives in order, greedy quantifiers. -/

/-- The characters `.` does not match. -/
def isLineTerminator (c : Char) : Bool :=
  let n := c.toNat
  n == 0x0A || n == 0x0D || n == 0x2028 || n == 0x2029

/-- One element of a pattern sequence. -/
inductive Piece where
  /-- Literal text. -/
  | lit (s : String)
  /-- The pattern `.*`. -/
  | anyStar
  /-- The pattern `(.+)`, as capture group number `index`. -/
  | anyPlusGroup (index : Nat)
  deriving DecidableEq, Repr

/-- Capture groups that took part in a match, with the text each captured. -/
abbrev Captures := List (Nat × String)

/-- Consumes a literal at the start of the input. -/
def dropLit : List Char → List Char → Option (List Char)
  | [], cs => some cs
  | _ :: _, [] => none
  | p :: ps, c :: cs => if p = c then dropLit ps cs else none

/-- Greedy `.*` followed by the continuation `k`: the longest run is tried
first, then shorter ones. -/
def greedyStar (k : List Char → Option Captures) : List Char → Option Captures
  | [] => k []
  | c :: cs =>
    if isLineTerminator c then k (c :: cs)
    else
      match greedyStar k cs with
      | some r => some r
      | none => k (c :: cs)

/-- Greedy run of `.` that remembers the characters taken so far. -/
def greedyCapture (k : List Char → List Char → Option Captures) :
    List Char → List Char → Option Captures
  | taken, [] => k taken []
  | taken, c :: cs =>
    if isLineTerminator c then k taken (c :: cs)
    else
      match greedyCapture k (taken ++ [c]) cs with
      | some r => some r
      | none => k taken (c :: cs)

/-- Matches a sequence of pieces at the start of the input. -/
def matchPieces : List Piece → List Char → Option Captures
  | [], _ => some []
  | Piece.lit s :: ps, input =>
    match dropLit s.data input with
    | some rest => matchPieces ps rest
    | none => none
  | Piece.anyStar :: ps, input => greedyStar (fun rest => matchPieces ps rest) input
  | Piece.anyPlusGroup i :: ps, input =>
    greedyCapture
      (fun taken rest =>
        if taken.isEmpty then none
        else (matchPieces ps rest).map (fun caps => (i, String.mk taken) :: caps))
      [] input

/-- A pattern: its alternatives, in the order they are written. -/
abbrev Regex := List (List Piece)

/-- Tries the alternatives in order at the start of the input. -/
def matchAlternatives : Regex → List Char → Option Captures
  | [], _ => none
  | alt :: alts, input =>
    match matchPieces alt input with
    | some r => some r
    | none => matchAlternatives alts input

/-- Searches for the leftmost match. -/
def searchChars (re : Regex) : List Char → Option Captures
  | [] => matchAlternatives re []
  | c :: cs =>
    match matchAlternatives re (c :: cs) with
    | some r => some r
    | none => searchChars re cs

/-- The method `String.prototype.match` for a pattern without the `g` flag:
`none` is `null`, otherwise the capture groups of the leftmost match. -/
def regexMatch (s : String) (re : Regex) : Option Captures :=
  searchChars re s.data

/-- Element `m[i]` of a match result: `none` is `undefined`. -/
def group (m : Captures) (i : Nat) : Option String :=
  (m.find? (fun p => p.1 == i)).map (fun p => p.2)

/-- Truthiness of a value that is a string, `null` or `undefined`. -/
def truthy : Option String → Bool
  | some s => s != ""
  | none => false

/-- The operator `||` on values that are strings or `undefined`. -/
def orElse (a b : Option String) : Option String :=
  if truthy a then a else b

/-- The pattern `/total money.* to .* last year/`. -/
def reTotalMoney : Regex :=
  [[Piece.lit "total money", Piece.anyStar, Piece.lit " to ", Piece.anyStar,
    Piece.lit " last year"]]

/-- The pattern `/how much.* sent to .* last year/`. -/
def reHowMuch : Regex :=
  [[Piece.lit "how much", Piece.anyStar, Piece.lit " sent to ", Piece.anyStar,
    Piece.lit " last year"]]

/-- The pattern `/to (.+) in the last year|to (.+) last year|to (.+) in 2024/`. -/
def reName : Regex :=
  [[Piece.lit "to ", Piece.anyPlusGroup 1, Piece.lit " in the last year"],
   [Piece.lit "to ", Piece.anyPlusGroup 2, Piece.lit " last year"],
   [Piece.lit "to ", Piece.anyPlusGroup 3, Piece.lit " in 2024"]]

/-! ## Values and rows -/

/-- A value stored in a column, as the driver hands it to JavaScript (`REAL`
and `BLOB` values are not needed by the code modelled here). -/
inductive SqlValue where
  | null
  | integer (i : Int)
  | text (s : String)
  deriving DecidableEq, Repr

/-- A result row: an object from column name to value. -/
abbrev Row := List (String × SqlValue)

/-- Property access `row.key`: `none` is `undefined`. -/
def Row.field (r : Row) (key : String) : Option SqlValue :=
  (r.find? (fun p => p.1 == key)).map (fun p => p.2)

/-- How a template literal renders an interpolated column value. -/
def templateValue : Option SqlValue → String
  | none => "undefined"
  | some SqlValue.null => "null"
  | some (SqlValue.integer i) => toString i
  | some (SqlValue.text s) => s

/-! ## The translator -/

/-- The object `{ sql, reason }` that `nl2sqlPlaceholder` returns; `sql` is
`none` for `null`. -/
structure Translation where
  sql : Option String
  reason : String
  deriving DecidableEq, Repr

/-- The schema object built by the handler: table name to column names. -/
abbrev Schema := List (String × List (Option SqlValue))

/-- What line 90 is written against: a handle whose `prepare(sql).get(arg)`
returns synchronously the first row of the result set, or `undefined` when it
is empty. `query sql arg` is that result set for the single bound argument
`arg`, in result order, or the message of the error thrown. The module never
binds `db` to such a handle (see `moduleDb`); the handle is there so that the
statements about emitted SQL hold for every binding, the unbound one
included. -/
structure LookupHandle where
  query : String → String → Except String (List Row)

/-- The call `db.prepare(sql).get(arg)`: `none` is `undefined`. -/
def LookupHandle.get (h : LookupHandle) (sql arg : String) : Except String (Option Row) :=
  match h.query sql arg with
  | Except.ok rows => Except.ok rows.head?
  | Except.error e => Except.error e

/-- Binding of the free identifier `db` at line 90 of server.js. The module
declares `db` only as a local constant of `initDb` and of the start-up
function, and assigns the handle to `app.locals.db`; no declaration is in scope
inside `nl2sqlPlaceholder`, so evaluating `db` there throws a ReferenceError. -/
def moduleDb : Option LookupHandle := none

/-- SQL text of the first handler. -/
def sqlLargest : String :=
  "SELECT merchant, category, amount, date FROM transactions WHERE date >= date('now','start of month','-1 month') AND date < date('now','start of month') ORDER BY amount DESC LIMIT 1;"

/-- SQL text of the beneficiary lookup. -/
def sqlLookup : String :=
  "SELECT beneficiary_id FROM beneficiaries WHERE lower(name) LIKE lower('%' || ? || '%')"

/-- SQL template of the second handler, filled with `b.beneficiary_id`. -/
def sqlTotalSent (beneficiary_id : Option SqlValue) : String :=
  "SELECT SUM(amount) as total_sent FROM transfers WHERE to_beneficiary_id = " ++
    templateValue beneficiary_id ++ " AND date >= date('now','-1 year');"

/-- SQL text of the third handler. -/
def sqlListAll : String :=
  "SELECT * FROM transactions ORDER BY date DESC LIMIT 200;"

/-- The name the second handler extracts from the lower-cased question:
`m[1] || m[2] || m[3]` when the pattern matches, else `null`. -/
def extractName (q : String) : Option String :=
  match regexMatch q reName with
  | some m => orElse (orElse (group m 1) (group m 2)) (group m 3)
  | none => none

/-- Trigger condition of the second handler (line 83). -/
def recipientTrigger (q : String) : Bool :=
  (regexMatch q reTotalMoney).isSome || (regexMatch q reHowMuch).isSome

/-- Lines 98 to 105: the third handler and the final miss. -/
def listOrMiss (q : String) : Translation :=
  if includes q "show all transactions" || includes q "list all transactions" then
    { sql := some sqlListAll, reason := "list all transactions" }
  else
    { sql := none, reason := "needs LLM" }

/-- The function `nl2sqlPlaceholder(nl, schema)`, with the binding of its free
identifier `db` as the first argument. An error is a thrown exception (a
rejected promise). -/
def nl2sqlPlaceholder (db : Option LookupHandle) (nl : String) (_schema : Schema) :
    Except String Translation :=
  let q := toLowerCase nl
  if includes q "biggest transaction" || includes q "largest transaction" then
    Except.ok { sql := some sqlLargest, reason := "biggest transaction last month" }
  else if recipientTrigger q then
    match extractName q with
    | some name =>
      if truthy (some name) then
        match db with
        | none => Except.error "db is not defined"
        | some h =>
          match h.get sqlLookup (trim name) with
          | Except.error e => Except.error e
          | Except.ok (some b) =>
            Except.ok { sql := some (sqlTotalSent (b.field "beneficiary_id")),
                        reason := "total money sent to " ++ name ++ " in last year" }
          | Except.ok none => Except.ok (listOrMiss q)
      else Except.ok (listOrMiss q)
    | none => Except.ok (listOrMiss q)
  else
    Except.ok (listOrMiss q)

/-! ## The database behind `app.locals.db` -/

/-- The metadata `db.run` resolves to. -/
structure RunInfo where
  lastID : Int
  changes : Int
  deriving DecidableEq, Repr

/-- The handle `app.locals.db` over stored state `σ`. Each method either
returns a value or throws the message given, and leaves a next state. -/
structure Database (σ : Type) where
  /-- The method `all(sql)`. -/
  all : String → σ → Except String (List Row) × σ
  /-- The method `run(sql, params)`. -/
  run : String → List SqlValue → σ → Except String RunInfo × σ

/-- What the handler did that is visible outside it. -/
inductive Event where
  /-- A call `app.locals.db.all(sql)`. -/
  | dbAll (sql : String)
  /-- A call `app.locals.db.run(sql, params)`. -/
  | dbRun (sql : String) (params : List SqlValue)
  /-- An invocation `runQuery(sql)`. -/
  | runQuery (sql : String)
  deriving DecidableEq, Repr

/-- Stored state together with the events so far. -/
structure World (σ : Type) where
  store : σ
  log : List Event

/-- Awaits `app.locals.db.all(sql)`. -/
def dbAll {σ : Type} (db : Database σ) (sql : String) (w : World σ) :
    Except String (List Row) × World σ :=
  let r := db.all sql w.store
  (r.1, { store := r.2, log := w.log ++ [Event.dbAll sql] })

/-- Awaits `app.locals.db.run(sql, params)`. -/
def dbRun {σ : Type} (db : Database σ) (sql : String) (params : List SqlValue) (w : World σ) :
    Except String RunInfo × World σ :=
  let r := db.run sql params w.store
  (r.1, { store := r.2, log := w.log ++ [Event.dbRun sql params] })

/-! ## `runQuery` -/

/-- The object `runQuery` returns: `{ rows }`, `{ info }` or `{ error }`. A
field that is `none` is a key the object does not have. -/
structure ExecutionResult where
  rows : Option (List Row)
  info : Option RunInfo
  error : Option String
  deriving DecidableEq, Repr

/-- The condition of line 59 on `trimmed = sql.trim().toLowerCase()`. -/
def isReadStatement (sql : String) : Bool :=
  let trimmed := toLowerCase (trim sql)
  startsWith trimmed "select" || startsWith trimmed "pragma"

/-- The `try` block of `runQuery` (lines 58 to 65). -/
def runQueryTry {σ : Type} (db : Database σ) (sql : String) (w : World σ) :
    Except String ExecutionResult × World σ :=
  if isReadStatement sql then
    match dbAll db sql w with
    | (Except.ok rows, w1) =>
      (Except.ok { rows := some rows, info := none, error := none }, w1)
    | (Except.error e, w1) => (Except.error e, w1)
  else
    match dbRun db sql [] w with
    | (Except.ok info, w1) =>
      (Except.ok { rows := none, info := some info, error := none }, w1)
    | (Except.error e, w1) => (Except.error e, w1)

/-- The function `runQuery(sql)`: the `try` block, and the `catch` clause that
turns a thrown error into `{ error: err.message }`. -/
def runQuery {σ : Type} (db : Database σ) (sql : String) (w : World σ) :
    Except String ExecutionResult × World σ :=
  match runQueryTry db sql w with
  | (Except.ok r, w1) => (Except.ok r, w1)
  | (Except.error message, w1) =>
    (Except.ok { rows := none, info := none, error := some message }, w1)

/-! ## `POST /query` -/

/-- The member `query` of a request body. -/
inductive JsonValue where
  /-- A JSON string. -/
  | str (s : String)
  /-- Any JSON value other than a string (null, boolean, number, array or
  object), with its truthiness. -/
  | other (isTruthy : Bool)
  deriving DecidableEq, Repr

/-- The parsed request body; `query` is `none` when the member is missing. -/
structure RequestBody where
  query : Option JsonValue
  deriving DecidableEq, Repr

/-- Truthiness of the destructured `query`. -/
def queryTruthy : Option JsonValue → Bool
  | none => false
  | some (JsonValue.str s) => s != ""
  | some (JsonValue.other t) => t

/-- The JSON object passed to `res.json`; a field that is `none` is a key the
object does not have. When `query` is echoed it is the question string. -/
structure Payload where
  query : Option String
  sql : Option String
  reason : Option String
  result : Option ExecutionResult
  error : Option String
  suggestion : Option String
  deriving DecidableEq, Repr

/-- Status code and JSON payload of a response. -/
structure Response where
  status : Nat
  body : Payload
  deriving DecidableEq, Repr

/-- A payload `{ error }`. -/
def errorPayload (message : String) : Payload :=
  { query := none, sql := none, reason := none, result := none,
    error := some message, suggestion := none }

/-- The payload sent when the translator produced no SQL (line 126). -/
def missPayload : Payload :=
  { query := none, sql := none, reason := none, result := none,
    error := some "Could not generate SQL with placeholder translator. Replace nl2sqlPlaceholder with LLM call (OpenAI or other).",
    suggestion := some "Use /schema to fetch table/column names for prompt." }

/-- The assignment `schema[key] = columns`. -/
def assign (schema : Schema) (key : String) (columns : List (Option SqlValue)) : Schema :=
  if schema.any (fun p => p.1 == key) then
    schema.map (fun p => if p.1 == key then (key, columns) else p)
  else schema ++ [(key, columns)]

/-- SQL text that lists the user tables. -/
def sqlTables : String :=
  "SELECT name FROM sqlite_master WHERE type='table' AND name NOT LIKE 'sqlite_%';"

/-- The loop of lines 117 to 120 over the remaining tables. -/
def loadColumns {σ : Type} (db : Database σ) :
    List Row → Schema → World σ → Except String Schema × World σ
  | [], schema, w => (Except.ok schema, w)
  | t :: ts, schema, w =>
    match dbAll db ("PRAGMA table_info(" ++ templateValue (t.field "name") ++ ")") w with
    | (Except.error e, w1) => (Except.error e, w1)
    | (Except.ok cols, w1) =>
      loadColumns db ts
        (assign schema (templateValue (t.field "name")) (cols.map (fun c => c.field "name"))) w1

/-- Lines 115 to 120: the schema handed to the translator. -/
def loadSchema {σ : Type} (db : Database σ) (w : World σ) : Except String Schema × World σ :=
  match dbAll db sqlTables w with
  | (Except.error e, w1) => (Except.error e, w1)
  | (Except.ok schemaTables, w1) => loadColumns db schemaTables [] w1

/-- SQL text of the audit insert. -/
def sqlAudit : String :=
  "INSERT INTO audit_logs (event, table_name, row_id) VALUES (?, ?, ?)"

/-- The audit write of lines 131 to 133: its outcome is discarded. -/
def recordAudit {σ : Type} (db : Database σ) (nl : String) (w : World σ) : World σ :=
  (dbRun db sqlAudit [SqlValue.text nl, SqlValue.text "queries", SqlValue.null] w).2

/-- The `try` block of the handler (lines 114 to 135), for a truthy `query`.
`scopeDb` gives the binding of the identifier `db` of the translator, from the
stored state at the time of the call. A `query` that is not a string has no
method `toLowerCase`, so line 75 throws a TypeError for it. -/
def postQueryTry {σ : Type} (scopeDb : σ → Option LookupHandle) (db : Database σ)
    (query : JsonValue) (w : World σ) : Except String Response × World σ :=
  match loadSchema db w with
  | (Except.error e, w1) => (Except.error e, w1)
  | (Except.ok schema, w1) =>
    match query with
    | JsonValue.other _ => (Except.error "nl.toLowerCase is not a function", w1)
    | JsonValue.str nl =>
      match nl2sqlPlaceholder (scopeDb w1.store) nl schema with
      | Except.error e => (Except.error e, w1)
      | Except.ok translation =>
        match translation.sql with
        | none => (Except.ok { status := 200, body := missPayload }, w1)
        | some sql =>
          if !(truthy (some sql)) then
            (Except.ok { status := 200, body := missPayload }, w1)
          else
            match runQuery db sql { store := w1.store, log := w1.log ++ [Event.runQuery sql] } with
            | (Except.error e, w2) => (Except.error e, w2)
            | (Except.ok execution, w2) =>
              (Except.ok { status := 200,
                           body := { query := some nl, sql := some sql,
                                     reason := some translation.reason,
                                     result := some execution,
                                     error := none, suggestion := none } },
               recordAudit db nl w2)

/-- The handler of `POST /query`: the guard of line 111, the `try` block, and
the `catch` clause that answers 500 with `{ error: err.message }`. -/
def postQuery {σ : Type} (scopeDb : σ → Option LookupHandle) (db : Database σ)
    (body : RequestBody) (w : World σ) : Response × World σ :=
  match body.query with
  | none => ({ status := 400, body := errorPayload "missing query" }, w)
  | some query =>
    if !(queryTruthy (some query)) then
      ({ status := 400, body := errorPayload "missing query" }, w)
    else
      match postQueryTry scopeDb db query w with
      | (Except.ok r, w1) => (r, w1)
      | (Except.error message, w1) => ({ status := 500, body := errorPayload message }, w1)

/-! ## Vocabulary of the specification -/

/-- The method `String.prototype.endsWith`. -/
def endsWith (s suffix : String) : Bool :=
  startsWithChars suffix.data.reverse s.data.reverse

/-- A statement that is non-empty and whose only statement terminator `;` is
its last character. -/
def SingleStatement (sql : String) : Prop :=
  sql.data ≠ [] ∧ sql.data.count ';' = 1 ∧ sql.data.getLast? = some ';'

/-- The text after the first occurrence of `needle`. -/
def afterFirst (needle : List Char) : List Char → Option (List Char)
  | [] => dropLit needle []
  | c :: cs =>
    match dropLit needle (c :: cs) with
    | some rest => some rest
    | none => afterFirst needle cs

/-- Value of a run of decimal digits. -/
def digitsValue (ds : List Char) : Nat :=
  ds.foldl (fun n c => 10 * n + (c.toNat - 48)) 0

/-- The row limit of a statement: the number written after ` LIMIT `. -/
def rowLimit (sql : String) : Option Nat :=
  match afterFirst " LIMIT ".data sql.data with
  | some rest =>
    let ds := rest.takeWhile Char.isDigit
    if ds.isEmpty then none else some (digitsValue ds)
  | none => none

/-- Whether a statement sorts by `date`, newest first. -/
def ordersByDateDesc (sql : String) : Bool :=
  includes sql " ORDER BY date DESC"

/-- Number of keys of the object `runQuery` returns. -/
def keyCount (r : ExecutionResult) : Nat :=
  (if r.rows.isSome then 1 else 0) + (if r.info.isSome then 1 else 0) +
    (if r.error.isSome then 1 else 0)

/-- Shape (1) of a payload: `error` is set, `sql` and `result` are absent. -/
def Payload.errorOnly (p : Payload) : Bool :=
  p.error.isSome && p.sql.isNone && p.result.isNone

/-- Shape (2) of a payload: `sql` and `result` are set, `error` is absent. -/
def Payload.answered (p : Payload) : Bool :=
  p.sql.isSome && p.result.isSome && p.error.isNone

/-- The statements passed to `runQuery`, in order. -/
def invocations (log : List Event) : List String :=
  log.filterMap (fun e => match e with
    | Event.runQuery sql => some sql
    | _ => none)

/-- The mutating calls `app.locals.db.run(sql, params)` made, in order. -/
def mutations (log : List Event) : List (String × List SqlValue) :=
  log.filterMap (fun e => match e with
    | Event.dbRun sql params => some (sql, params)
    | _ => none)

/-- The database `db` with the outcome of the audit insert, the call
`run(sqlAudit, [query, 'queries', null])`, replaced by `outcome`; every other
call behaves as in `db`. -/
def withAuditOutcome {σ : Type} (db : Database σ)
    (outcome : List SqlValue → σ → Except String RunInfo × σ) : Database σ :=
  { all := db.all
    run := fun sql params s =>
      if sql = sqlAudit ∧ params.length = 3 then outcome params s else db.run sql params s }

/-- Every row the lookup can return carries an integer `beneficiary_id`. -/
def IntegerIds (h : LookupHandle) : Prop :=
  ∀ sql arg rows b, h.query sql arg = Except.ok rows → b ∈ rows →
    ∃ i : Int, b.field "beneficiary_id" = some (SqlValue.integer i)

/-- The handlers of the translator; the second one with the `beneficiary_id`
its lookup resolved. -/
inductive Handler where
  | largest
  | recipient (beneficiary_id : Option SqlValue)
  | listing
  deriving DecidableEq, Repr

/-- The `beneficiary_id` the second handler resolves for a lower-cased
question, when its trigger matches, it extracts a name and the lookup returns
a row. -/
def resolvedId (db : Option LookupHandle) (q : String) : Option (Option SqlValue) :=
  if recipientTrigger q then
    match extractName q, db with
    | some name, some h =>
      if truthy (some name) then
        match h.get sqlLookup (trim name) with
        | Except.ok (some b) => some (b.field "beneficiary_id")
        | _ => none
      else none
    | _, _ => none
  else none

/-- Which handler answers a question: the first, in priority order, whose
trigger matches (and, for the second, whose lookup resolves an id). -/
def firedHandler (db : Option LookupHandle) (nl : String) : Option Handler :=
  let q := toLowerCase nl
  if includes q "biggest transaction" || includes q "largest transaction" then
    some Handler.largest
  else
    match resolvedId db q with
    | some id => some (Handler.recipient id)
    | none =>
      if includes q "show all transactions" || includes q "list all transactions" then
        some Handler.listing
      else none

/-- The statement a handler emits. -/
def Handler.sql : Handler → String
  | Handler.largest => sqlLargest
  | Handler.recipient id => sqlTotalSent id
  | Handler.listing => sqlListAll

/-! ## Concrete databases used in the examples -/

/-- A row `{ beneficiary_id: i }`. -/
def idRow (i : Int) : Row := [("beneficiary_id", SqlValue.integer i)]

/-- A lookup handle over a table in which two beneficiaries, with ids 1 and 4,
have a name containing `john`, and no other name matches anything asked. -/
def twoJohns : LookupHandle :=
  { query := fun _ arg => if arg = "john" then Except.ok [idRow 1, idRow 4] else Except.ok [] }

/-- A database without tables that accepts every statement. -/
def emptyDatabase : Database Unit :=
  { all := fun _ s => (Except.ok [], s)
    run := fun _ _ s => (Except.ok { lastID := 0, changes := 0 }, s) }

/-- A database that cannot be reached: every call throws. -/
def unreachableDatabase : Database Unit :=
  { all := fun _ s => (Except.error "SQLITE_CANTOPEN: unable to open database file", s)
    run := fun _ _ s => (Except.error "SQLITE_CANTOPEN: unable to open database file", s) }

/-- A database with the `transactions` table missing: the listing of tables
succeeds and is empty, every other statement throws. -/
def noTransactionsDatabase : Database Unit :=
  { all := fun sql s =>
      if sql = sqlTables then (Except.ok [], s)
      else (Except.error "SQLITE_ERROR: no such table: transactions", s)
    run := fun _ _ s => (Except.ok { lastID := 1, changes := 1 }, s) }

/-- The world at the start of a request. -/
def freshWorld {σ : Type} (store : σ) : World σ := { store := store, log := [] }

/-! ## The translator: which handler answers -/

/-- A question that mentions the biggest or largest transaction is answered by
the first handler, whatever else it contains. -/
theorem nl2sql_largest (db : Option LookupHandle) (nl : String) (schema : Schema)
    (h : (includes (toLowerCase nl) "biggest transaction" ||
          includes (toLowerCase nl) "largest transaction") = true) :
    nl2sqlPlaceholder db nl schema =
      Except.ok { sql := some sqlLargest, reason := "biggest transaction last month" } := by
  unfold nl2sqlPlaceholder
  simp only [h, if_true]

/-- A question that triggers neither of the first two handlers is answered by
lines 98 to 105. -/
theorem nl2sql_fallthrough (db : Option LookupHandle) (nl : String) (schema : Schema)
    (h1 : (includes (toLowerCase nl) "biggest transaction" ||
           includes (toLowerCase nl) "largest transaction") = false)
    (h2 : recipientTrigger (toLowerCase nl) = false) :
    nl2sqlPlaceholder db nl schema = Except.ok (listOrMiss (toLowerCase nl)) := by
  unfold nl2sqlPlaceholder
  simp [h1, h2]

/-- C1: a question whose lower-cased text contains "biggest transaction" or
"largest transaction" is translated, for every schema and whatever else it
contains, to the statement that selects from transactions the rows dated from
the start of the previous calendar month up to the start of the current month,
ordered by amount descending with LIMIT 1. -/
theorem largest_transaction_translated (db : Option LookupHandle) (nl : String)
    (schema : Schema)
    (h : includes (toLowerCase nl) "biggest transaction" = true ∨
         includes (toLowerCase nl) "largest transaction" = true) :
    nl2sqlPlaceholder db nl schema =
      Except.ok { sql := some sqlLargest, reason := "biggest transaction last month" } ∧
    startsWith sqlLargest "SELECT merchant, category, amount, date FROM transactions WHERE " = true ∧
    includes sqlLargest
      " WHERE date >= date('now','start of month','-1 month') AND date < date('now','start of month') "
      = true ∧
    endsWith sqlLargest " ORDER BY amount DESC LIMIT 1;" = true ∧
    rowLimit sqlLargest = some 1 := by
  refine ⟨nl2sql_largest db nl schema ?_, by decide, by decide, by decide, by decide⟩
  rcases h with h | h <;> simp [h]

/-- C1 at the first question the chat window suggests. -/
theorem largest_transaction_translated_witness :
    (includes (toLowerCase "What was my biggest transaction last month?") "biggest transaction"
        = true ∨
      includes (toLowerCase "What was my biggest transaction last month?") "largest transaction"
        = true) ∧
    nl2sqlPlaceholder moduleDb "What was my biggest transaction last month?" [] =
      Except.ok { sql := some sqlLargest, reason := "biggest transaction last month" } :=
  ⟨Or.inl (by decide),
   (largest_transaction_translated moduleDb "What was my biggest transaction last month?" []
      (Or.inl (by decide))).1⟩

/-- C2, as stated, fails: this question contains "show all transactions", yet
the first handler answers it, and its statement sorts by amount, not by date. -/
theorem listing_shadowed_by_largest :
    includes (toLowerCase "Show all transactions and my biggest transaction")
      "show all transactions" = true ∧
    nl2sqlPlaceholder moduleDb "Show all transactions and my biggest transaction" [] =
      Except.ok { sql := some sqlLargest, reason := "biggest transaction last month" } ∧
    ordersByDateDesc sqlLargest = false := by
  refine ⟨by decide, by rfl, by decide⟩

/-- C2, amended: a question whose lower-cased text contains "show all
transactions" or "list all transactions" and that triggers neither of the two
handlers tried before (first matching handler wins) is translated to a
statement that sorts by date descending with a row limit of 200. -/
theorem list_all_translated (db : Option LookupHandle) (nl : String) (schema : Schema)
    (h : includes (toLowerCase nl) "show all transactions" = true ∨
         includes (toLowerCase nl) "list all transactions" = true)
    (h1 : includes (toLowerCase nl) "biggest transaction" = false ∧
          includes (toLowerCase nl) "largest transaction" = false)
    (h2 : recipientTrigger (toLowerCase nl) = false) :
    nl2sqlPlaceholder db nl schema =
      Except.ok { sql := some sqlListAll, reason := "list all transactions" } ∧
    ordersByDateDesc sqlListAll = true ∧
    (∃ n, rowLimit sqlListAll = some n ∧ n ≤ 200) := by
  refine ⟨?_, by decide, ⟨200, by decide, le_refl _⟩⟩
  rw [nl2sql_fallthrough db nl schema (by simp [h1.1, h1.2]) h2]
  unfold listOrMiss
  rcases h with h | h <;> simp [h]

/-- C2, amended, at the second question the chat window suggests. -/
theorem list_all_translated_witness :
    nl2sqlPlaceholder moduleDb "Show all transactions" [] =
      Except.ok { sql := some sqlListAll, reason := "list all transactions" } ∧
    ordersByDateDesc sqlListAll = true ∧
    (∃ n, rowLimit sqlListAll = some n ∧ n ≤ 200) :=
  list_all_translated moduleDb "Show all transactions" [] (Or.inl (by decide))
    ⟨by decide, by decide⟩ (by decide)

/-- C3: the question the chat window suggests says "send to" where the trigger
pattern of the second handler requires "sent to", so no handler matches it and
the translator returns no SQL, whatever the beneficiaries table holds. -/
theorem john_question_untranslated (db : Option LookupHandle) (schema : Schema) :
    recipientTrigger (toLowerCase "How much did I send to John last year?") = false ∧
    nl2sqlPlaceholder db "How much did I send to John last year?" schema =
      Except.ok { sql := none, reason := "needs LLM" } := by
  refine ⟨by decide, ?_⟩
  rw [nl2sql_fallthrough db _ schema (by decide) (by decide)]
  rfl

/-! ## The second handler -/

/-- C4 fails on the code: a question that triggers the second handler and
yields an extracted name never falls through to the later handlers. Line 90
evaluates the identifier `db`, which the module does not bind, before any
beneficiary is looked up, so the translator throws whatever the beneficiaries
table holds. For "how much money was sent to zed last year", a name no
beneficiary matches, `POST /query` answers 500 instead of the translation
miss. -/
theorem recipient_handler_never_falls_through :
    recipientTrigger (toLowerCase "how much money was sent to zed last year") = true ∧
    extractName (toLowerCase "how much money was sent to zed last year") = some "zed" ∧
    listOrMiss (toLowerCase "how much money was sent to zed last year") =
      { sql := none, reason := "needs LLM" } ∧
    (∀ schema, nl2sqlPlaceholder moduleDb "how much money was sent to zed last year" schema =
      Except.error "db is not defined") ∧
    (postQuery (fun _ => moduleDb) emptyDatabase
        { query := some (JsonValue.str "how much money was sent to zed last year") }
        (freshWorld ())).1 =
      { status := 500, body := errorPayload "db is not defined" } ∧
    (∀ nl schema name,
      (includes (toLowerCase nl) "biggest transaction" ||
        includes (toLowerCase nl) "largest transaction") = false →
      recipientTrigger (toLowerCase nl) = true →
      extractName (toLowerCase nl) = some name →
      truthy (some name) = true →
      nl2sqlPlaceholder moduleDb nl schema = Except.error "db is not defined") := by
  refine ⟨by decide, by decide, by decide, fun schema => by rfl, by decide, ?_⟩
  intro nl schema name h1 h2 h3 h4
  unfold nl2sqlPlaceholder moduleDb
  simp [h1, h2, h3, h4]

/-! ## What the handler passes to `runQuery` -/

theorem invocations_append (a b : List Event) :
    invocations (a ++ b) = invocations a ++ invocations b := by
  simp [invocations, List.filterMap_append]

theorem dbAll_invocations {σ : Type} (db : Database σ) (sql : String) (w : World σ) :
    invocations (dbAll db sql w).2.log = invocations w.log := by
  simp [dbAll, invocations, List.filterMap_append]

theorem dbRun_invocations {σ : Type} (db : Database σ) (sql : String)
    (params : List SqlValue) (w : World σ) :
    invocations (dbRun db sql params w).2.log = invocations w.log := by
  simp [dbRun, invocations, List.filterMap_append]

theorem loadColumns_invocations {σ : Type} (db : Database σ) :
    ∀ (ts : List Row) (schema : Schema) (w : World σ),
      invocations (loadColumns db ts schema w).2.log = invocations w.log := by
  intro ts
  induction ts with
  | nil => intro schema w; rfl
  | cons t ts ih =>
    intro schema w
    unfold loadColumns
    have hlog := dbAll_invocations db
      ("PRAGMA table_info(" ++ templateValue (t.field "name") ++ ")") w
    rcases hcall : dbAll db
      ("PRAGMA table_info(" ++ templateValue (t.field "name") ++ ")") w with ⟨r, w1⟩
    rw [hcall] at hlog
    cases r with
    | error e => simpa using hlog
    | ok cols => simp only []; rw [ih]; simpa using hlog

theorem loadSchema_invocations {σ : Type} (db : Database σ) (w : World σ) :
    invocations (loadSchema db w).2.log = invocations w.log := by
  unfold loadSchema
  have hlog := dbAll_invocations db sqlTables w
  rcases hcall : dbAll db sqlTables w with ⟨r, w1⟩
  rw [hcall] at hlog
  cases r with
  | error e => simpa using hlog
  | ok tables => simp only []; rw [loadColumns_invocations]; simpa using hlog

/-! ## Questions no handler answers -/

/-- The translator returns no SQL for a question that triggers no handler. -/
theorem nl2sql_miss (db : Option LookupHandle) (nl : String) (schema : Schema)
    (h1 : includes (toLowerCase nl) "biggest transaction" = false ∧
          includes (toLowerCase nl) "largest transaction" = false)
    (h2 : regexMatch (toLowerCase nl) reTotalMoney = none ∧
          regexMatch (toLowerCase nl) reHowMuch = none)
    (h3 : includes (toLowerCase nl) "show all transactions" = false ∧
          includes (toLowerCase nl) "list all transactions" = false) :
    nl2sqlPlaceholder db nl schema = Except.ok { sql := none, reason := "needs LLM" } := by
  rw [nl2sql_fallthrough db nl schema (by simp [h1.1, h1.2])
    (by simp [recipientTrigger, h2.1, h2.2])]
  simp [listOrMiss, h3.1, h3.2]

/-- C5, as stated, fails in two ways. When the database cannot be reached, a
question that triggers no handler is answered 500 with the error alone. An
empty question triggers no handler either, and is answered 400 with the error
alone. Neither payload has a suggestion. -/
theorem no_handler_without_suggestion :
    nl2sqlPlaceholder moduleDb "asdkj random gibberish" [] =
      Except.ok { sql := none, reason := "needs LLM" } ∧
    (postQuery (fun _ => moduleDb) unreachableDatabase
        { query := some (JsonValue.str "asdkj random gibberish") } (freshWorld ())).1 =
      { status := 500,
        body := { query := none, sql := none, reason := none, result := none,
                  error := some "SQLITE_CANTOPEN: unable to open database file",
                  suggestion := none } } ∧
    nl2sqlPlaceholder moduleDb "" [] = Except.ok { sql := none, reason := "needs LLM" } ∧
    (postQuery (fun _ => moduleDb) emptyDatabase
        { query := some (JsonValue.str "") } (freshWorld ())).1 =
      { status := 400,
        body := { query := none, sql := none, reason := none, result := none,
                  error := some "missing query", suggestion := none } } := by
  refine ⟨by rfl, by decide, by rfl, by decide⟩

/-- C5, amended: for a question that triggers no handler the translator
returns no SQL, and `POST /query` answers with error set and with sql and
result absent, without invoking `runQuery`; when the question is not empty and
the schema was loaded, the answer is the 200 payload that carries the
suggestion. -/
theorem no_handler_answer {σ : Type} (scopeDb : σ → Option LookupHandle)
    (db : Database σ) (nl : String) (w : World σ)
    (h1 : includes (toLowerCase nl) "biggest transaction" = false ∧
          includes (toLowerCase nl) "largest transaction" = false)
    (h2 : regexMatch (toLowerCase nl) reTotalMoney = none ∧
          regexMatch (toLowerCase nl) reHowMuch = none)
    (h3 : includes (toLowerCase nl) "show all transactions" = false ∧
          includes (toLowerCase nl) "list all transactions" = false) :
    (∀ lookup schema,
      nl2sqlPlaceholder lookup nl schema = Except.ok { sql := none, reason := "needs LLM" }) ∧
    (postQuery scopeDb db { query := some (JsonValue.str nl) } w).1.body.error.isSome = true ∧
    (postQuery scopeDb db { query := some (JsonValue.str nl) } w).1.body.sql = none ∧
    (postQuery scopeDb db { query := some (JsonValue.str nl) } w).1.body.result = none ∧
    invocations (postQuery scopeDb db { query := some (JsonValue.str nl) } w).2.log =
      invocations w.log ∧
    (nl ≠ "" → ∀ schema, (loadSchema db w).1 = Except.ok schema →
      (postQuery scopeDb db { query := some (JsonValue.str nl) } w).1 =
        { status := 200, body := missPayload } ∧
      missPayload.suggestion.isSome = true) := by
  have hmiss := fun lookup schema => nl2sql_miss lookup nl schema h1 h2 h3
  have hlog := loadSchema_invocations db w
  refine ⟨hmiss, ?_⟩
  by_cases hnl : nl = ""
  · subst hnl
    simp [postQuery, queryTruthy, errorPayload]
  · have ht : queryTruthy (some (JsonValue.str nl)) = true := by
      simp [queryTruthy, hnl]
    rcases hload : loadSchema db w with ⟨r, w1⟩
    rw [hload] at hlog
    cases r with
    | error e =>
      simp [postQuery, ht, postQueryTry, hload, errorPayload, hnl]
      simpa using hlog
    | ok schema =>
      simp [postQuery, ht, postQueryTry, hload, hmiss, missPayload, hnl]
      simpa using hlog

/-- C5, amended, on a question of gibberish put to a database without tables:
the answer is the 200 payload with error and suggestion, and `runQuery` is not
invoked. -/
theorem no_handler_answer_witness :
    (regexMatch (toLowerCase "asdkj random gibberish") reTotalMoney = none ∧
      regexMatch (toLowerCase "asdkj random gibberish") reHowMuch = none) ∧
    "asdkj random gibberish" ≠ "" ∧
    (loadSchema emptyDatabase (freshWorld ())).1 = Except.ok [] ∧
    (postQuery (fun _ => moduleDb) emptyDatabase
        { query := some (JsonValue.str "asdkj random gibberish") } (freshWorld ())).1 =
      { status := 200, body := missPayload } ∧
    invocations (postQuery (fun _ => moduleDb) emptyDatabase
        { query := some (JsonValue.str "asdkj random gibberish") } (freshWorld ())).2.log =
      invocations (freshWorld ()).log :=
  have h := no_handler_answer (fun _ => moduleDb) emptyDatabase "asdkj random gibberish"
    (freshWorld ()) ⟨by decide, by decide⟩ ⟨by decide, by decide⟩ ⟨by decide, by decide⟩
  ⟨⟨by decide, by decide⟩, by decide, by rfl,
   (h.2.2.2.2.2 (by decide) [] (by rfl)).1, h.2.2.2.2.1⟩

/-! ## The unbound identifier of line 90 -/

/-- C6 fails on the code: for this question the second handler extracts the
name "john" and then evaluates the identifier `db`, which the module does not
bind; `nl2sqlPlaceholder` throws, and `POST /query` answers 500 for every
database. -/
theorem recipient_question_throws :
    recipientTrigger (toLowerCase "how much money was sent to john last year") = true ∧
    extractName (toLowerCase "how much money was sent to john last year") = some "john" ∧
    (∀ schema, nl2sqlPlaceholder moduleDb "how much money was sent to john last year" schema =
      Except.error "db is not defined") ∧
    (postQuery (fun _ => moduleDb) emptyDatabase
        { query := some (JsonValue.str "how much money was sent to john last year") }
        (freshWorld ())).1 =
      { status := 500, body := errorPayload "db is not defined" } ∧
    (∀ (σ : Type) (db : Database σ) (w : World σ),
      (postQuery (fun _ => moduleDb) db
        { query := some (JsonValue.str "how much money was sent to john last year") } w).1.status
        = 500) := by
  refine ⟨by decide, by decide, fun schema => by rfl, by decide, ?_⟩
  intro σ db w
  have hthrow : ∀ schema,
      nl2sqlPlaceholder moduleDb "how much money was sent to john last year" schema =
        Except.error "db is not defined" := fun schema => by rfl
  have ht : queryTruthy (some (JsonValue.str "how much money was sent to john last year"))
      = true := by decide
  rcases hload : loadSchema db w with ⟨r, w1⟩
  cases r with
  | error e => simp [postQuery, ht, postQueryTry, hload]
  | ok schema => simp [postQuery, ht, postQueryTry, hload, hthrow]

/-! ## Shape of the emitted statements -/

theorem digitChar_ne_semicolon (d : Nat) : Nat.digitChar d ≠ ';' := by
  match d with
  | 0 | 1 | 2 | 3 | 4 | 5 | 6 | 7 | 8 | 9 | 10 | 11 | 12 | 13 | 14 | 15 => decide
  | n + 16 => simp [Nat.digitChar]

theorem toDigitsCore_no_semicolon :
    ∀ (fuel n : Nat) (ds : List Char), ';' ∉ ds → ';' ∉ Nat.toDigitsCore 10 fuel n ds := by
  intro fuel
  induction fuel with
  | zero => intro n ds h; simpa [Nat.toDigitsCore] using h
  | succ fuel ih =>
    intro n ds h
    have hd : ';' ∉ Nat.digitChar (n % 10) :: ds := by
      simp only [List.mem_cons, not_or]
      exact ⟨fun e => digitChar_ne_semicolon _ e.symm, h⟩
    unfold Nat.toDigitsCore
    dsimp only
    split
    · exact hd
    · exact ih _ _ hd

theorem int_toString_no_semicolon (i : Int) : ';' ∉ (toString i).data := by
  cases i with
  | ofNat m =>
    show ';' ∉ (Nat.repr m).data
    simp only [Nat.repr, List.asString]
    exact toDigitsCore_no_semicolon _ _ _ (by simp)
  | negSucc m =>
    show ';' ∉ ("-" ++ Nat.repr (m + 1)).data
    simp only [String.data_append, List.mem_append, not_or]
    refine ⟨by decide, ?_⟩
    simp only [Nat.repr, List.asString]
    exact toDigitsCore_no_semicolon _ _ _ (by simp)

theorem singleStatement_totalSent (i : Int) :
    SingleStatement (sqlTotalSent (some (SqlValue.integer i))) := by
  have hc : List.count ';' (toString i).data = 0 :=
    List.count_eq_zero.mpr (int_toString_no_semicolon i)
  unfold SingleStatement sqlTotalSent templateValue
  simp only [String.data_append]
  refine ⟨?_, ?_, ?_⟩
  · simp
  · rw [List.count_append, List.count_append, hc]
    decide
  · rw [List.getLast?_append_of_ne_nil _ (by decide)]
    decide

theorem runQuery_invocations {σ : Type} (db : Database σ) (sql : String) (w : World σ) :
    invocations (runQuery db sql w).2.log = invocations w.log := by
  unfold runQuery runQueryTry
  by_cases hr : isReadStatement sql = true
  · have hlog := dbAll_invocations db sql w
    rcases hcall : dbAll db sql w with ⟨r, w1⟩
    rw [hcall] at hlog
    cases r <;> simpa [hr, hcall] using hlog
  · have hlog := dbRun_invocations db sql [] w
    rcases hcall : dbRun db sql [] w with ⟨r, w1⟩
    rw [hcall] at hlog
    cases r <;> simpa [hr, hcall] using hlog

theorem recordAudit_invocations {σ : Type} (db : Database σ) (nl : String) (w : World σ) :
    invocations (recordAudit db nl w).log = invocations w.log := by
  unfold recordAudit
  exact dbRun_invocations db _ _ w

/-- Lines 98 to 105 and the handler they stand for. -/
theorem fired_tail (db : Option LookupHandle) (nl : String)
    (h1 : (includes (toLowerCase nl) "biggest transaction" ||
           includes (toLowerCase nl) "largest transaction") = false)
    (hres : resolvedId db (toLowerCase nl) = none) :
    (firedHandler db nl = some Handler.listing ∧
      (listOrMiss (toLowerCase nl)).sql = some sqlListAll) ∨
    (firedHandler db nl = none ∧ (listOrMiss (toLowerCase nl)).sql = none) := by
  unfold firedHandler listOrMiss
  by_cases h3 : (includes (toLowerCase nl) "show all transactions" ||
      includes (toLowerCase nl) "list all transactions") = true
  · left; simp [h1, hres, h3]
  · right; simp [h1, hres, h3]

/-- What a returned translation can be, with the handler that produced it. -/
theorem nl2sql_ok_cases (db : Option LookupHandle) (nl : String) (schema : Schema)
    (t : Translation) (ht : nl2sqlPlaceholder db nl schema = Except.ok t) :
    (firedHandler db nl = some Handler.largest ∧ t.sql = some sqlLargest) ∨
    (∃ h arg b rest, db = some h ∧ h.query sqlLookup arg = Except.ok (b :: rest) ∧
      firedHandler db nl = some (Handler.recipient (b.field "beneficiary_id")) ∧
      t.sql = some (sqlTotalSent (b.field "beneficiary_id"))) ∨
    (firedHandler db nl = some Handler.listing ∧ t.sql = some sqlListAll) ∨
    (firedHandler db nl = none ∧ t.sql = none) := by
  by_cases h1 : (includes (toLowerCase nl) "biggest transaction" ||
      includes (toLowerCase nl) "largest transaction") = true
  · left
    rw [nl2sql_largest db nl schema h1] at ht
    injection ht with ht
    subst ht
    exact ⟨by simp [firedHandler, h1], rfl⟩
  · have h1f : (includes (toLowerCase nl) "biggest transaction" ||
        includes (toLowerCase nl) "largest transaction") = false := by simpa using h1
    by_cases h2 : recipientTrigger (toLowerCase nl) = true
    · unfold nl2sqlPlaceholder at ht
      simp only [h1f, h2, if_true, Bool.false_eq_true, if_false] at ht
      cases hn : extractName (toLowerCase nl) with
      | none =>
        simp only [hn] at ht
        injection ht with ht
        subst ht
        right; right
        exact fired_tail db nl h1f (by simp [resolvedId, h2, hn])
      | some name =>
        simp only [hn] at ht
        by_cases h4 : truthy (some name) = true
        · simp only [h4, if_true] at ht
          cases db with
          | none => simp at ht
          | some h =>
            simp only [LookupHandle.get] at ht
            cases hq : h.query sqlLookup (trim name) with
            | error e => simp [hq] at ht
            | ok rows =>
              cases rows with
              | nil =>
                simp only [hq, List.head?_nil] at ht
                injection ht with ht
                subst ht
                right; right
                exact fired_tail (some h) nl h1f
                  (by simp [resolvedId, h2, hn, h4, LookupHandle.get, hq])
              | cons b rest =>
                simp only [hq, List.head?_cons] at ht
                injection ht with ht
                subst ht
                right; left
                refine ⟨h, trim name, b, rest, rfl, hq, ?_, rfl⟩
                simp [firedHandler, h1f, resolvedId, h2, hn, h4, LookupHandle.get, hq]
        · simp only [h4, if_false] at ht
          injection ht with ht
          subst ht
          right; right
          exact fired_tail db nl h1f (by cases db <;> simp [resolvedId, h2, hn, h4])
    · have h2f : recipientTrigger (toLowerCase nl) = false := by simpa using h2
      rw [nl2sql_fallthrough db nl schema h1f h2f] at ht
      injection ht with ht
      subst ht
      right; right
      exact fired_tail db nl h1f (by simp [resolvedId, h2f])

/-- Every emitted statement is the statement of the handler that fired. -/
theorem nl2sql_sql_eq_fired (db : Option LookupHandle) (nl : String) (schema : Schema)
    (t : Translation) (ht : nl2sqlPlaceholder db nl schema = Except.ok t) :
    t.sql = (firedHandler db nl).map Handler.sql := by
  rcases nl2sql_ok_cases db nl schema t ht with
    ⟨hf, hs⟩ | ⟨h, arg, b, rest, _, _, hf, hs⟩ | ⟨hf, hs⟩ | ⟨hf, hs⟩ <;>
  simp [hf, hs, Handler.sql]

/-- The statements one request passes to `runQuery` come from the translator. -/
theorem postQuery_invocations {σ : Type} (scopeDb : σ → Option LookupHandle)
    (db : Database σ) (body : RequestBody) (w : World σ) (sql : String)
    (hmem : sql ∈ invocations (postQuery scopeDb db body w).2.log) :
    sql ∈ invocations w.log ∨
    ∃ store nl schema t,
      nl2sqlPlaceholder (scopeDb store) nl schema = Except.ok t ∧ t.sql = some sql := by
  unfold postQuery at hmem
  cases hq : body.query with
  | none => left; simpa [hq] using hmem
  | some query =>
    simp only [hq] at hmem
    by_cases htr : queryTruthy (some query) = true
    · simp only [htr, Bool.not_true, Bool.false_eq_true, if_false] at hmem
      unfold postQueryTry at hmem
      have hlog := loadSchema_invocations db w
      rcases hload : loadSchema db w with ⟨r, w1⟩
      rw [hload] at hlog
      simp only [hload] at hmem
      cases r with
      | error e => left; simpa [hlog] using hmem
      | ok schema =>
        simp only [] at hmem
        cases query with
        | other b => left; simpa [hlog] using hmem
        | str nl =>
          simp only [] at hmem
          cases htrans : nl2sqlPlaceholder (scopeDb w1.store) nl schema with
          | error e => left; simpa [htrans, hlog] using hmem
          | ok translation =>
            simp only [htrans] at hmem
            cases hsql : translation.sql with
            | none => left; simpa [hsql, hlog] using hmem
            | some s =>
              simp only [hsql] at hmem
              by_cases hts : truthy (some s) = true
              · simp only [hts, Bool.not_true, Bool.false_eq_true, if_false] at hmem
                have hrun := runQuery_invocations db s
                  { store := w1.store, log := w1.log ++ [Event.runQuery s] }
                rcases hcall : runQuery db s
                  { store := w1.store, log := w1.log ++ [Event.runQuery s] } with ⟨r2, w2⟩
                rw [hcall] at hrun
                simp only [hcall] at hmem
                have hnew : invocations w2.log = invocations w.log ++ [s] := by
                  rw [hrun, invocations_append, hlog]
                  rfl
                cases r2 with
                | error e =>
                  simp only [] at hmem
                  rw [hnew] at hmem
                  rcases List.mem_append.mp hmem with hm | hm
                  · exact Or.inl hm
                  · right
                    refine ⟨w1.store, nl, schema, translation, htrans, ?_⟩
                    rw [hsql, List.mem_singleton.mp hm]
                | ok execution =>
                  simp only [] at hmem
                  rw [recordAudit_invocations, hnew] at hmem
                  rcases List.mem_append.mp hmem with hm | hm
                  · exact Or.inl hm
                  · right
                    refine ⟨w1.store, nl, schema, translation, htrans, ?_⟩
                    rw [hsql, List.mem_singleton.mp hm]
              · left
                simp only [hts, Bool.not_false, if_true] at hmem
                simpa [hlog] using hmem
    · left
      simp only [htr, Bool.not_false, if_true] at hmem
      simpa using hmem

/-- The rows of `twoJohns` carry integer ids. -/
theorem twoJohns_integerIds : IntegerIds twoJohns := by
  intro sql arg rows b hq hb
  unfold twoJohns at hq
  simp only [] at hq
  by_cases ha : arg = "john"
  · simp only [ha, if_true] at hq
    injection hq with hq
    subst hq
    simp only [List.mem_cons, List.mem_singleton, List.not_mem_nil, or_false] at hb
    rcases hb with hb | hb
    · exact ⟨1, by rw [hb]; rfl⟩
    · exact ⟨4, by rw [hb]; rfl⟩
  · simp only [ha, if_false] at hq
    injection hq with hq
    subst hq
    simp at hb

/-- C7: every statement the translator returns, and so every statement
`POST /query` passes to `runQuery`, is non-empty and has exactly one `;`, as
its last character, provided the `beneficiary_id` values the lookup returns
are integers. -/
theorem translated_sql_single_statement {σ : Type} (scopeDb : σ → Option LookupHandle)
    (db : Database σ)
    (hInt : ∀ store h, scopeDb store = some h → IntegerIds h) :
    (∀ store nl schema t sql,
      nl2sqlPlaceholder (scopeDb store) nl schema = Except.ok t → t.sql = some sql →
        SingleStatement sql) ∧
    (∀ body store sql,
      sql ∈ invocations (postQuery scopeDb db body (freshWorld store)).2.log →
        SingleStatement sql) := by
  have key : ∀ store nl schema t sql,
      nl2sqlPlaceholder (scopeDb store) nl schema = Except.ok t → t.sql = some sql →
        SingleStatement sql := by
    intro store nl schema t sql ht hs
    rcases nl2sql_ok_cases (scopeDb store) nl schema t ht with
      ⟨_, h⟩ | ⟨h, arg, b, rest, hdb, hq, _, hsql⟩ | ⟨_, h⟩ | ⟨_, h⟩
    · rw [h] at hs
      injection hs with hs
      subst hs
      exact ⟨by decide, by decide, by decide⟩
    · obtain ⟨i, hi⟩ := hInt store h hdb sqlLookup arg (b :: rest) b hq
        (List.mem_cons_self b rest)
      rw [hsql, hi] at hs
      injection hs with hs
      subst hs
      exact singleStatement_totalSent i
    · rw [h] at hs
      injection hs with hs
      subst hs
      exact ⟨by decide, by decide, by decide⟩
    · rw [h] at hs
      cases hs
  refine ⟨key, ?_⟩
  intro body store sql hmem
  rcases postQuery_invocations scopeDb db body (freshWorld store) sql hmem with
    h | ⟨store1, nl, schema, t, ht, hs⟩
  · simp [freshWorld, invocations] at h
  · exact key store1 nl schema t sql ht hs

/-- C7 on a table with two beneficiaries called John: the statement the
handler passes to `runQuery` for that question is a single statement. -/
theorem translated_sql_single_statement_witness :
    (∀ (store : Unit) h, (fun _ => some twoJohns) store = some h → IntegerIds h) ∧
    invocations (postQuery (fun _ => some twoJohns) emptyDatabase
      { query := some (JsonValue.str "how much money was sent to john last year") }
      (freshWorld ())).2.log =
      ["SELECT SUM(amount) as total_sent FROM transfers WHERE to_beneficiary_id = 1 AND date >= date('now','-1 year');"] ∧
    SingleStatement
      "SELECT SUM(amount) as total_sent FROM transfers WHERE to_beneficiary_id = 1 AND date >= date('now','-1 year');" :=
  have hInt : ∀ (store : Unit) h, (fun _ => some twoJohns) store = some h → IntegerIds h :=
    fun _ h hh => by
      injection hh with hh
      subst hh
      exact twoJohns_integerIds
  ⟨hInt, by decide,
   (translated_sql_single_statement (fun _ => some twoJohns) emptyDatabase hInt).2
     { query := some (JsonValue.str "how much money was sent to john last year") } () _
     (by decide)⟩

/-- C8: the emitted SQL carries no text of the question. Two questions,
whatever they say and whatever the lookup handles, that are answered by the
same handler and, for the second handler, resolve to the same
`beneficiary_id`, are translated to identical statements. -/
theorem sql_independent_of_question_text (db1 db2 : Option LookupHandle)
    (nl1 nl2 : String) (schema1 schema2 : Schema) (t1 t2 : Translation)
    (h1 : nl2sqlPlaceholder db1 nl1 schema1 = Except.ok t1)
    (h2 : nl2sqlPlaceholder db2 nl2 schema2 = Except.ok t2)
    (hf : firedHandler db1 nl1 = firedHandler db2 nl2) :
    t1.sql = t2.sql ∧
    t1.sql = (firedHandler db1 nl1).map Handler.sql := by
  have e1 := nl2sql_sql_eq_fired db1 nl1 schema1 t1 h1
  have e2 := nl2sql_sql_eq_fired db2 nl2 schema2 t2 h2
  exact ⟨by rw [e1, e2, hf], e1⟩

/-- C8 on two differently worded questions about the same beneficiary: the
reasons differ, the statements do not. -/
theorem sql_independent_of_question_text_witness :
    nl2sqlPlaceholder (some twoJohns) "how much money was sent to john last year" [] =
      Except.ok
        { sql := some "SELECT SUM(amount) as total_sent FROM transfers WHERE to_beneficiary_id = 1 AND date >= date('now','-1 year');",
          reason := "total money sent to john in last year" } ∧
    nl2sqlPlaceholder (some twoJohns) "Total money I paid to  JOHN last year" [] =
      Except.ok
        { sql := some "SELECT SUM(amount) as total_sent FROM transfers WHERE to_beneficiary_id = 1 AND date >= date('now','-1 year');",
          reason := "total money sent to  john in last year" } ∧
    firedHandler (some twoJohns) "how much money was sent to john last year" =
      firedHandler (some twoJohns) "Total money I paid to  JOHN last year" ∧
    (Translation.mk
      (some "SELECT SUM(amount) as total_sent FROM transfers WHERE to_beneficiary_id = 1 AND date >= date('now','-1 year');")
      "total money sent to john in last year").sql =
    (Translation.mk
      (some "SELECT SUM(amount) as total_sent FROM transfers WHERE to_beneficiary_id = 1 AND date >= date('now','-1 year');")
      "total money sent to  john in last year").sql :=
  ⟨by rfl, by rfl, by decide,
   (sql_independent_of_question_text (some twoJohns) (some twoJohns)
      "how much money was sent to john last year"
      "Total money I paid to  JOHN last year" [] [] _ _ (by rfl) (by rfl)
      (by decide)).1⟩

/-! ## `runQuery` and the response -/

/-- C9: `runQuery` never raises. For every statement and every behaviour of
the database it returns an object with exactly one of the keys rows, info and
error; the key is error, with the message thrown, exactly when the database
call throws, and otherwise it is rows or info. -/
theorem runQuery_never_raises {σ : Type} (db : Database σ) (sql : String) (w : World σ) :
    ∃ r, (runQuery db sql w).1 = Except.ok r ∧ keyCount r = 1 ∧
      (∀ message, r.error = some message ↔
        ((isReadStatement sql = true ∧ (db.all sql w.store).1 = Except.error message) ∨
         (isReadStatement sql = false ∧ (db.run sql [] w.store).1 = Except.error message))) ∧
      (r.error = none → r.rows.isSome = true ∨ r.info.isSome = true) := by
  unfold runQuery runQueryTry
  by_cases hr : isReadStatement sql = true
  · simp only [hr, if_true]
    unfold dbAll
    cases hcall : (db.all sql w.store).1 with
    | error e =>
      exact ⟨{ rows := none, info := none, error := some e }, by simp [hcall],
        by simp [keyCount], by simp [hr, eq_comm], by simp⟩
    | ok rows =>
      exact ⟨{ rows := some rows, info := none, error := none }, by simp [hcall],
        by simp [keyCount], by simp [hr], by simp⟩
  · have hrf : isReadStatement sql = false := by simpa using hr
    simp only [hrf, Bool.false_eq_true, if_false]
    unfold dbRun
    cases hcall : (db.run sql [] w.store).1 with
    | error e =>
      exact ⟨{ rows := none, info := none, error := some e }, by simp [hcall],
        by simp [keyCount], by simp [hrf, eq_comm], by simp⟩
    | ok info =>
      exact ⟨{ rows := none, info := some info, error := none }, by simp [hcall],
        by simp [keyCount], by simp [hrf], by simp⟩

/-- The four payloads the handler can send. -/
theorem postQuery_response_cases {σ : Type} (scopeDb : σ → Option LookupHandle)
    (db : Database σ) (body : RequestBody) (w : World σ) :
    (postQuery scopeDb db body w).1 = { status := 400, body := errorPayload "missing query" } ∨
    (∃ message,
      (postQuery scopeDb db body w).1 = { status := 500, body := errorPayload message }) ∨
    (postQuery scopeDb db body w).1 = { status := 200, body := missPayload } ∨
    (∃ nl sql reason execution, body.query = some (JsonValue.str nl) ∧
      (postQuery scopeDb db body w).1 =
        { status := 200,
          body := { query := some nl, sql := some sql, reason := some reason,
                    result := some execution, error := none, suggestion := none } }) := by
  unfold postQuery
  cases hq : body.query with
  | none => left; rfl
  | some query =>
    simp only []
    by_cases htr : queryTruthy (some query) = true
    · simp only [htr, Bool.not_true, Bool.false_eq_true, if_false]
      unfold postQueryTry
      rcases hload : loadSchema db w with ⟨r, w1⟩
      cases r with
      | error e => right; left; exact ⟨e, rfl⟩
      | ok schema =>
        simp only []
        cases query with
        | other b => right; left; exact ⟨_, rfl⟩
        | str nl =>
          simp only []
          cases htrans : nl2sqlPlaceholder (scopeDb w1.store) nl schema with
          | error e => right; left; exact ⟨e, rfl⟩
          | ok translation =>
            simp only []
            cases hsql : translation.sql with
            | none => right; right; left; rfl
            | some s =>
              simp only []
              by_cases hts : truthy (some s) = true
              · simp only [hts, Bool.not_true, Bool.false_eq_true, if_false]
                rcases hcall : runQuery db s
                  { store := w1.store, log := w1.log ++ [Event.runQuery s] } with ⟨r2, w2⟩
                cases r2 with
                | error e => right; left; exact ⟨e, rfl⟩
                | ok execution =>
                  right; right; right
                  exact ⟨nl, s, translation.reason, execution, rfl, rfl⟩
              · right; right; left
                simp only [hts, Bool.not_false, if_true]
    · left
      simp only [htr, Bool.not_false, if_true]

/-- C10: for every request body the payload of `POST /query` has exactly one
of two shapes: error set with sql and result absent, or sql and result set with
error absent. The second shape comes with the original query and the reason,
and it is the one sent when execution fails: the failure is then found only
in result.error, as the request on a database without the transactions table
shows. -/
theorem response_has_one_shape {σ : Type} (scopeDb : σ → Option LookupHandle)
    (db : Database σ) (body : RequestBody) (w : World σ) :
    (((postQuery scopeDb db body w).1.body.errorOnly = true ∧
        (postQuery scopeDb db body w).1.body.answered = false) ∨
      ((postQuery scopeDb db body w).1.body.errorOnly = false ∧
        (postQuery scopeDb db body w).1.body.answered = true)) ∧
    ((postQuery scopeDb db body w).1.body.answered = true →
      (postQuery scopeDb db body w).1.status = 200 ∧
      (postQuery scopeDb db body w).1.body.query.isSome = true ∧
      (postQuery scopeDb db body w).1.body.reason.isSome = true ∧
      (postQuery scopeDb db body w).1.body.error = none) ∧
    (postQuery (fun _ => moduleDb) noTransactionsDatabase
        { query := some (JsonValue.str "show all transactions") } (freshWorld ())).1 =
      { status := 200,
        body := { query := some "show all transactions",
                  sql := some "SELECT * FROM transactions ORDER BY date DESC LIMIT 200;",
                  reason := some "list all transactions",
                  result := some { rows := none, info := none,
                                   error := some "SQLITE_ERROR: no such table: transactions" },
                  error := none, suggestion := none } } := by
  refine ⟨?_, ?_, by decide⟩
  · rcases postQuery_response_cases scopeDb db body w with
      h | ⟨m, h⟩ | h | ⟨nl, sql, reason, execution, _, h⟩ <;>
    simp [h, Payload.errorOnly, Payload.answered, errorPayload, missPayload]
  · rcases postQuery_response_cases scopeDb db body w with
      h | ⟨m, h⟩ | h | ⟨nl, sql, reason, execution, _, h⟩ <;>
    simp [h, Payload.answered, errorPayload, missPayload]

/-! ## The audit write -/

theorem dbAll_congr {σ : Type} (db1 db2 : Database σ) (hall : db1.all = db2.all)
    (sql : String) (w : World σ) : dbAll db1 sql w = dbAll db2 sql w := by
  simp [dbAll, hall]

theorem loadColumns_congr {σ : Type} (db1 db2 : Database σ) (hall : db1.all = db2.all) :
    ∀ (ts : List Row) (schema : Schema) (w : World σ),
      loadColumns db1 ts schema w = loadColumns db2 ts schema w := by
  intro ts
  induction ts with
  | nil => intro schema w; rfl
  | cons t ts ih =>
    intro schema w
    unfold loadColumns
    rw [dbAll_congr db1 db2 hall]
    rcases dbAll db2 ("PRAGMA table_info(" ++ templateValue (t.field "name") ++ ")") w
      with ⟨r, w1⟩
    cases r with
    | error e => rfl
    | ok cols => exact ih _ _

theorem loadSchema_congr {σ : Type} (db1 db2 : Database σ) (hall : db1.all = db2.all)
    (w : World σ) : loadSchema db1 w = loadSchema db2 w := by
  unfold loadSchema
  rw [dbAll_congr db1 db2 hall]
  rcases dbAll db2 sqlTables w with ⟨r, w1⟩
  cases r with
  | error e => rfl
  | ok tables => exact loadColumns_congr db1 db2 hall _ _ _

theorem runQuery_congr {σ : Type} (db1 db2 : Database σ) (hall : db1.all = db2.all)
    (hrun : ∀ sql s, db1.run sql [] s = db2.run sql [] s) (sql : String) (w : World σ) :
    runQuery db1 sql w = runQuery db2 sql w := by
  unfold runQuery runQueryTry
  rw [dbAll_congr db1 db2 hall]
  have hr : dbRun db1 sql [] w = dbRun db2 sql [] w := by simp [dbRun, hrun]
  rw [hr]

/-- Two databases that differ only in calls of `run` with parameters send the
same response. -/
theorem postQuery_response_congr {σ : Type} (scopeDb : σ → Option LookupHandle)
    (db1 db2 : Database σ) (hall : db1.all = db2.all)
    (hrun : ∀ sql s, db1.run sql [] s = db2.run sql [] s)
    (body : RequestBody) (w : World σ) :
    (postQuery scopeDb db1 body w).1 = (postQuery scopeDb db2 body w).1 := by
  unfold postQuery
  cases body.query with
  | none => rfl
  | some query =>
    simp only []
    by_cases htr : queryTruthy (some query) = true
    · simp only [htr, Bool.not_true, Bool.false_eq_true, if_false]
      unfold postQueryTry
      rw [loadSchema_congr db1 db2 hall]
      rcases loadSchema db2 w with ⟨r, w1⟩
      cases r with
      | error e => rfl
      | ok schema =>
        simp only []
        cases query with
        | other b => rfl
        | str nl =>
          simp only []
          cases nl2sqlPlaceholder (scopeDb w1.store) nl schema with
          | error e => rfl
          | ok translation =>
            simp only []
            cases translation.sql with
            | none => rfl
            | some sql =>
              simp only []
              by_cases hts : truthy (some sql) = true
              · simp only [hts, Bool.not_true, Bool.false_eq_true, if_false]
                rw [runQuery_congr db1 db2 hall hrun]
                rcases runQuery db2 sql
                  { store := w1.store, log := w1.log ++ [Event.runQuery sql] } with ⟨r2, w2⟩
                cases r2 with
                | error e => rfl
                | ok execution => rfl
              · simp only [hts, Bool.not_false, if_true]
    · simp only [htr, Bool.not_false, if_true]

/-- C11: the response of `POST /query` is the same whatever the audit insert
does, succeed or throw: the outcome of that call never reaches the payload or
the status. On a database whose audit insert throws, a translated question is
still answered 200 with its rows and without an error field. -/
theorem audit_outcome_invisible {σ : Type} (scopeDb : σ → Option LookupHandle)
    (db : Database σ) (outcome1 outcome2 : List SqlValue → σ → Except String RunInfo × σ)
    (body : RequestBody) (w : World σ) :
    (postQuery scopeDb (withAuditOutcome db outcome1) body w).1 =
      (postQuery scopeDb (withAuditOutcome db outcome2) body w).1 ∧
    (postQuery (fun _ => moduleDb)
        (withAuditOutcome emptyDatabase (fun _ s => (Except.error "SQLITE_BUSY: database is locked", s)))
        { query := some (JsonValue.str "Show all transactions") } (freshWorld ())).1 =
      { status := 200,
        body := { query := some "Show all transactions",
                  sql := some "SELECT * FROM transactions ORDER BY date DESC LIMIT 200;",
                  reason := some "list all transactions",
                  result := some { rows := some [], info := none, error := none },
                  error := none, suggestion := none } } ∧
    mutations (postQuery (fun _ => moduleDb)
        (withAuditOutcome emptyDatabase (fun _ s => (Except.error "SQLITE_BUSY: database is locked", s)))
        { query := some (JsonValue.str "Show all transactions") } (freshWorld ())).2.log =
      [(sqlAudit, [SqlValue.text "Show all transactions", SqlValue.text "queries",
                   SqlValue.null])] := by
  refine ⟨postQuery_response_congr scopeDb (withAuditOutcome db outcome1)
    (withAuditOutcome db outcome2) rfl ?_ body w, by decide, by decide⟩
  intro sql s
  simp [withAuditOutcome]

/-! ## What the translation depends on -/

/-- The translator never reads its schema argument. -/
theorem nl2sql_schema_irrelevant (db : Option LookupHandle) (nl : String)
    (schema1 schema2 : Schema) :
    nl2sqlPlaceholder db nl schema1 = nl2sqlPlaceholder db nl schema2 := rfl

/-- The statement in a response is the one the translator returned for the
question of the request. -/
theorem postQuery_sql_source {σ : Type} (scopeDb : σ → Option LookupHandle)
    (db : Database σ) (body : RequestBody) (w : World σ) (s : String)
    (hs : (postQuery scopeDb db body w).1.body.sql = some s) :
    ∃ (nl : String) (schema : Schema) (w1 : World σ) (t : Translation),
      body.query = some (JsonValue.str nl) ∧
      nl2sqlPlaceholder (scopeDb w1.store) nl schema = Except.ok t ∧ t.sql = some s := by
  unfold postQuery at hs
  cases hq : body.query with
  | none => simp [hq, errorPayload] at hs
  | some query =>
    simp only [hq] at hs
    by_cases htr : queryTruthy (some query) = true
    · simp only [htr, Bool.not_true, Bool.false_eq_true, if_false] at hs
      unfold postQueryTry at hs
      rcases hload : loadSchema db w with ⟨res, w1⟩
      simp only [hload] at hs
      cases res with
      | error e => simp [errorPayload] at hs
      | ok schema =>
        simp only [] at hs
        cases query with
        | other b => simp [errorPayload] at hs
        | str nl =>
          simp only [] at hs
          cases htrans : nl2sqlPlaceholder (scopeDb w1.store) nl schema with
          | error e => simp [htrans, errorPayload] at hs
          | ok translation =>
            simp only [htrans] at hs
            cases hsql : translation.sql with
            | none => simp [hsql, missPayload] at hs
            | some sql =>
              simp only [hsql] at hs
              by_cases hts : truthy (some sql) = true
              · simp only [hts, Bool.not_true, Bool.false_eq_true, if_false] at hs
                rcases hcall : runQuery db sql
                  { store := w1.store, log := w1.log ++ [Event.runQuery sql] } with ⟨r2, w2⟩
                simp only [hcall] at hs
                cases r2 with
                | error e => simp [errorPayload] at hs
                | ok execution =>
                  simp only [Option.some.injEq] at hs
                  exact ⟨nl, schema, w1, translation, rfl, htrans, by rw [hsql, hs]⟩
              · simp [hts, missPayload] at hs
    · simp [htr, errorPayload] at hs

/-- C12: in the module as written the translator's result is a function of the
question: translating the same question twice gives the same result, whatever
the schema, and the statement `POST /query` reports for a request body is the
same on any two databases, in any two stored states. Two different databases
asked to show all transactions are sent the same statement. -/
theorem translation_depends_on_question_only :
    (∀ nl schema1 schema2,
      nl2sqlPlaceholder moduleDb nl schema1 = nl2sqlPlaceholder moduleDb nl schema2) ∧
    (∀ (σ1 σ2 : Type) (db1 : Database σ1) (db2 : Database σ2) (body : RequestBody)
        (w1 : World σ1) (w2 : World σ2) (s1 s2 : String),
      (postQuery (fun _ => moduleDb) db1 body w1).1.body.sql = some s1 →
      (postQuery (fun _ => moduleDb) db2 body w2).1.body.sql = some s2 →
      s1 = s2) ∧
    (postQuery (fun _ => moduleDb) emptyDatabase
        { query := some (JsonValue.str "Show all transactions") } (freshWorld ())).1.body.sql =
      some sqlListAll ∧
    (postQuery (fun _ => moduleDb) noTransactionsDatabase
        { query := some (JsonValue.str "Show all transactions") } (freshWorld ())).1.body.sql =
      some sqlListAll := by
  refine ⟨fun nl schema1 schema2 => rfl, ?_, by decide, by decide⟩
  intro σ1 σ2 db1 db2 body w1 w2 s1 s2 h1 h2
  obtain ⟨nl1, schemaA, _, t1, hq1, ht1, hs1⟩ :=
    postQuery_sql_source (fun _ => moduleDb) db1 body w1 s1 h1
  obtain ⟨nl2, schemaB, _, t2, hq2, ht2, hs2⟩ :=
    postQuery_sql_source (fun _ => moduleDb) db2 body w2 s2 h2
  rw [hq1] at hq2
  injection hq2 with hq2
  injection hq2 with hq2
  subst hq2
  rw [nl2sql_schema_irrelevant moduleDb nl1 schemaA schemaB, ht2] at ht1
  injection ht1 with ht1
  subst ht1
  rw [hs1] at hs2
  injection hs2

/-! ## Classification of statements -/

/-- C13: `runQuery` classifies a statement by the start of its trimmed,
lower-cased text. When that text begins with "select" or "pragma" the
statement goes to `db.all` and the rows come back as `{ rows }`; every other
statement goes to `db.run` and the metadata comes back as `{ info }`. Leading
white space and letter case do not matter. -/
theorem runQuery_classifies {σ : Type} (db : Database σ) (sql : String) (w : World σ) :
    ((startsWith (toLowerCase (trim sql)) "select" = true ∨
        startsWith (toLowerCase (trim sql)) "pragma" = true) →
      (runQuery db sql w).2.log = w.log ++ [Event.dbAll sql] ∧
      (∀ rows, (db.all sql w.store).1 = Except.ok rows →
        (runQuery db sql w).1 = Except.ok { rows := some rows, info := none, error := none })) ∧
    (¬ (startsWith (toLowerCase (trim sql)) "select" = true ∨
        startsWith (toLowerCase (trim sql)) "pragma" = true) →
      (runQuery db sql w).2.log = w.log ++ [Event.dbRun sql []] ∧
      (∀ info, (db.run sql [] w.store).1 = Except.ok info →
        (runQuery db sql w).1 = Except.ok { rows := none, info := some info, error := none })) ∧
    isReadStatement " \n\tSeLeCt * FROM accounts " = true ∧
    isReadStatement "PRAGMA table_info(accounts)" = true ∧
    isReadStatement "DELETE FROM accounts" = false ∧
    isReadStatement "  Update accounts SET balance = 0" = false := by
  refine ⟨?_, ?_, by decide, by decide, by decide, by decide⟩
  · intro h
    have hr : isReadStatement sql = true := by
      simpa [isReadStatement, Bool.or_eq_true] using h
    unfold runQuery runQueryTry
    simp only [hr, if_true]
    unfold dbAll
    constructor
    · cases hcall : (db.all sql w.store).1 <;> simp [hcall]
    · intro rows hrows
      simp [hrows]
  · intro h
    have hr : isReadStatement sql = false := by
      have : ¬ isReadStatement sql = true := by
        simpa [isReadStatement, Bool.or_eq_true] using h
      simpa using this
    unfold runQuery runQueryTry
    simp only [hr, Bool.false_eq_true, if_false]
    unfold dbRun
    constructor
    · cases hcall : (db.run sql [] w.store).1 <;> simp [hcall]
    · intro info hinfo
      simp [hinfo]

/-! ## The pipeline only reads -/

theorem startsWithChars_append (p a b : List Char) (h : startsWithChars p a = true) :
    startsWithChars p (a ++ b) = true := by
  induction p generalizing a with
  | nil => simp [startsWithChars]
  | cons c p ih =>
    cases a with
    | nil => simp [startsWithChars] at h
    | cons x a =>
      simp only [startsWithChars, Bool.and_eq_true, List.cons_append] at h ⊢
      exact ⟨h.1, ih a h.2⟩

/-- Trimming keeps a text that starts and ends with characters `trim` keeps. -/
theorem trim_keeps (a b : Char) (mid : List Char) (ha : isTrimChar a = false)
    (hb : isTrimChar b = false) :
    trim (String.mk (a :: (mid ++ [b]))) = String.mk (a :: (mid ++ [b])) := by
  simp [trim, trimStartChars, ha, hb]

theorem isRead_sqlTotalSent (id : Option SqlValue) :
    isReadStatement (sqlTotalSent id) = true := by
  have hshape : sqlTotalSent id =
      String.mk ('S' :: (("ELECT SUM(amount) as total_sent FROM transfers WHERE to_beneficiary_id = ".data
        ++ (templateValue id).data ++ " AND date >= date('now','-1 year')".data) ++ [';'])) := by
    unfold sqlTotalSent
    apply String.ext
    simp only [String.data_append]
    simp
  unfold isReadStatement
  rw [hshape, trim_keeps _ _ _ (by decide) (by decide)]
  simp only [Bool.or_eq_true]
  left
  unfold startsWith toLowerCase
  simp only [List.map_cons, List.map_append, List.append_assoc]
  exact startsWithChars_append _
    (Char.toLower 'S' :: List.map Char.toLower
      "ELECT SUM(amount) as total_sent FROM transfers WHERE to_beneficiary_id = ".data) _
    (by decide)


theorem startsWith_select_sqlTotalSent (id : Option SqlValue) :
    startsWith (sqlTotalSent id) "SELECT" = true := by
  unfold startsWith sqlTotalSent
  simp only [String.data_append, List.append_assoc]
  exact startsWithChars_append _ _ _ (by decide)

/-- Every statement the translator emits begins with SELECT and is classified
as read-only. -/
theorem translated_isRead (db : Option LookupHandle) (nl : String) (schema : Schema)
    (t : Translation) (sql : String) (ht : nl2sqlPlaceholder db nl schema = Except.ok t)
    (hs : t.sql = some sql) :
    startsWith sql "SELECT" = true ∧ isReadStatement sql = true := by
  rcases nl2sql_ok_cases db nl schema t ht with
    ⟨_, h⟩ | ⟨_, _, b, _, _, _, _, h⟩ | ⟨_, h⟩ | ⟨_, h⟩
  · rw [h] at hs; injection hs with hs; subst hs
    exact ⟨by decide, by decide⟩
  · rw [h] at hs; injection hs with hs; subst hs
    exact ⟨startsWith_select_sqlTotalSent _, isRead_sqlTotalSent _⟩
  · rw [h] at hs; injection hs with hs; subst hs
    exact ⟨by decide, by decide⟩
  · rw [h] at hs; cases hs

theorem mutations_append (a b : List Event) :
    mutations (a ++ b) = mutations a ++ mutations b := by
  simp [mutations, List.filterMap_append]

theorem dbAll_mutations {σ : Type} (db : Database σ) (sql : String) (w : World σ) :
    mutations (dbAll db sql w).2.log = mutations w.log := by
  simp [dbAll, mutations, List.filterMap_append]

theorem loadColumns_mutations {σ : Type} (db : Database σ) :
    ∀ (ts : List Row) (schema : Schema) (w : World σ),
      mutations (loadColumns db ts schema w).2.log = mutations w.log := by
  intro ts
  induction ts with
  | nil => intro schema w; rfl
  | cons t ts ih =>
    intro schema w
    unfold loadColumns
    have hlog := dbAll_mutations db
      ("PRAGMA table_info(" ++ templateValue (t.field "name") ++ ")") w
    rcases hcall : dbAll db
      ("PRAGMA table_info(" ++ templateValue (t.field "name") ++ ")") w with ⟨r, w1⟩
    rw [hcall] at hlog
    cases r with
    | error e => simpa using hlog
    | ok cols => simp only []; rw [ih]; simpa using hlog

theorem loadSchema_mutations {σ : Type} (db : Database σ) (w : World σ) :
    mutations (loadSchema db w).2.log = mutations w.log := by
  unfold loadSchema
  have hlog := dbAll_mutations db sqlTables w
  rcases hcall : dbAll db sqlTables w with ⟨r, w1⟩
  rw [hcall] at hlog
  cases r with
  | error e => simpa using hlog
  | ok tables => simp only []; rw [loadColumns_mutations]; simpa using hlog

/-- A statement classified as read-only is run through `db.all` alone, and
its result has rows or error, never info. -/
theorem runQuery_read {σ : Type} (db : Database σ) (sql : String) (w : World σ)
    (hr : isReadStatement sql = true) :
    mutations (runQuery db sql w).2.log = mutations w.log ∧
    ∀ r, (runQuery db sql w).1 = Except.ok r →
      r.info = none ∧ (r.rows.isSome = true ∨ r.error.isSome = true) := by
  unfold runQuery runQueryTry
  simp only [hr, if_true]
  have hlog := dbAll_mutations db sql w
  rcases hcall : dbAll db sql w with ⟨res, w1⟩
  rw [hcall] at hlog
  cases res with
  | error e =>
    refine ⟨by simpa using hlog, ?_⟩
    intro r hres
    simp only [] at hres
    injection hres with hres
    subst hres
    simp
  | ok rows =>
    refine ⟨by simpa using hlog, ?_⟩
    intro r hres
    simp only [] at hres
    injection hres with hres
    subst hres
    simp


/-- The function `runQuery` always returns. -/
theorem runQuery_returns {σ : Type} (db : Database σ) (sql : String) (w : World σ) :
    ∃ r, (runQuery db sql w).1 = Except.ok r := by
  unfold runQuery
  rcases runQueryTry db sql w with ⟨res, w1⟩
  cases res with
  | error e => exact ⟨_, rfl⟩
  | ok r => exact ⟨r, rfl⟩

/-- Either the handler sends no result and ran nothing through `db.run`, or it
translated the question, executed the statement with `runQuery`, wrote the
audit record and sent the result of the execution. -/
theorem postQuery_trace {σ : Type} (scopeDb : σ → Option LookupHandle)
    (db : Database σ) (body : RequestBody) (w : World σ) :
    ((postQuery scopeDb db body w).1.body.result = none ∧
      mutations (postQuery scopeDb db body w).2.log = mutations w.log) ∨
    (∃ (nl : String) (schema : Schema) (t : Translation) (sql : String) (w1 : World σ)
        (r : ExecutionResult) (w2 : World σ),
      nl2sqlPlaceholder (scopeDb w1.store) nl schema = Except.ok t ∧ t.sql = some sql ∧
      mutations w1.log = mutations w.log ∧
      runQuery db sql { store := w1.store, log := w1.log ++ [Event.runQuery sql] } =
        (Except.ok r, w2) ∧
      (postQuery scopeDb db body w).1.body.result = some r ∧
      (postQuery scopeDb db body w).2 = recordAudit db nl w2) := by
  unfold postQuery
  cases hq : body.query with
  | none => left; exact ⟨rfl, rfl⟩
  | some query =>
    simp only []
    by_cases htr : queryTruthy (some query) = true
    · simp only [htr, Bool.not_true, Bool.false_eq_true, if_false]
      unfold postQueryTry
      have hlog := loadSchema_mutations db w
      rcases hload : loadSchema db w with ⟨res, w1⟩
      rw [hload] at hlog
      cases res with
      | error e => left; exact ⟨rfl, by simpa using hlog⟩
      | ok schema =>
        simp only []
        cases query with
        | other b => left; exact ⟨rfl, by simpa using hlog⟩
        | str nl =>
          simp only []
          cases htrans : nl2sqlPlaceholder (scopeDb w1.store) nl schema with
          | error e => left; exact ⟨rfl, by simpa using hlog⟩
          | ok translation =>
            simp only []
            cases hsql : translation.sql with
            | none => left; exact ⟨rfl, by simpa using hlog⟩
            | some s =>
              simp only []
              by_cases hts : truthy (some s) = true
              · simp only [hts, Bool.not_true, Bool.false_eq_true, if_false]
                obtain ⟨r, hr⟩ := runQuery_returns db s
                  { store := w1.store, log := w1.log ++ [Event.runQuery s] }
                rcases hcall : runQuery db s
                  { store := w1.store, log := w1.log ++ [Event.runQuery s] } with ⟨r2, w2⟩
                rw [hcall] at hr
                simp only [] at hr
                subst hr
                right
                exact ⟨nl, schema, translation, s, w1, r, w2, htrans, hsql,
                  by simpa using hlog, hcall, rfl, rfl⟩
              · left
                simp only [hts, Bool.not_false, if_true]
                exact ⟨rfl, by simpa using hlog⟩
    · left
      simp only [htr, Bool.not_false, if_true]
      exact ⟨rfl, trivial⟩

/-- C14: every statement the translator can emit begins with SELECT and is
classified as read-only by `runQuery`. For every request, each statement
passed to `runQuery` is read-only, a result that is sent has rows or error and
never info, and the only call of `db.run` is the audit insert. -/
theorem pipeline_read_only {σ : Type} (scopeDb : σ → Option LookupHandle)
    (db : Database σ) (body : RequestBody) (store : σ) :
    (∀ lookup nl schema t sql,
      nl2sqlPlaceholder lookup nl schema = Except.ok t → t.sql = some sql →
        startsWith sql "SELECT" = true ∧ isReadStatement sql = true) ∧
    (∀ sql, sql ∈ invocations (postQuery scopeDb db body (freshWorld store)).2.log →
      isReadStatement sql = true) ∧
    (∀ r, (postQuery scopeDb db body (freshWorld store)).1.body.result = some r →
      r.info = none ∧ (r.rows.isSome = true ∨ r.error.isSome = true)) ∧
    (∀ m, m ∈ mutations (postQuery scopeDb db body (freshWorld store)).2.log →
      m.1 = sqlAudit) := by
  refine ⟨fun lookup nl schema t sql => translated_isRead lookup nl schema t sql, ?_, ?_, ?_⟩
  · intro sql hmem
    rcases postQuery_invocations scopeDb db body (freshWorld store) sql hmem with
      h | ⟨store1, nl, schema, t, ht, hs⟩
    · simp [freshWorld, invocations] at h
    · exact (translated_isRead _ nl schema t sql ht hs).2
  · intro r hres
    rcases postQuery_trace scopeDb db body (freshWorld store) with
      ⟨hnone, _⟩ | ⟨nl, schema, t, sql, w1, r1, w2, ht, hs, _, hcall, hsent, _⟩
    · rw [hnone] at hres; cases hres
    · rw [hsent] at hres
      injection hres with hres
      subst hres
      have hread := (translated_isRead _ nl schema t sql ht hs).2
      have := (runQuery_read db sql
        { store := w1.store, log := w1.log ++ [Event.runQuery sql] } hread).2 r1
      rw [hcall] at this
      exact this rfl
  · intro m hmem
    rcases postQuery_trace scopeDb db body (freshWorld store) with
      ⟨_, hmut⟩ | ⟨nl, schema, t, sql, w1, r1, w2, ht, hs, hmut1, hcall, _, hworld⟩
    · rw [hmut] at hmem
      simp [freshWorld, mutations] at hmem
    · have hread := (translated_isRead _ nl schema t sql ht hs).2
      have hrun := (runQuery_read db sql
        { store := w1.store, log := w1.log ++ [Event.runQuery sql] } hread).1
      rw [hcall] at hrun
      have hw2 : mutations w2.log = [] := by
        rw [hrun, mutations_append, hmut1]
        simp [freshWorld, mutations]
      rw [hworld] at hmem
      unfold recordAudit dbRun at hmem
      simp only [mutations_append, hw2, List.nil_append] at hmem
      simp [mutations] at hmem
      rw [hmem]

end TalkToYourData
